import Mathlib

/-!
# etcd-helper: the bootstrap decision engine of `main.go`

A shallow embedding of `main.go`.  Go strings are Lean strings, slices are lists,
`map[string]string` is an association list with unique keys, a Go `error` is its
message (`none` standing for `nil`), and everything the program asks of the operating
system or of a library is answered by a `World`.  Calls that reach outside the process
(`os.Stat`, the members API, `syscall.Exec`) are recorded in a trace, in program order.
Logging other than the fatal message is left out.
-/

namespace EtcdHelper

/-! ## Strings -/

/-- The pieces of a character list between occurrences of `sep`; never empty. -/
def splitChars (sep : Char) : List Char → List (List Char)
  | [] => [[]]
  | c :: cs =>
    if c = sep then [] :: splitChars sep cs
    else
      match splitChars sep cs with
      | [] => [[c]]
      | h :: t => (c :: h) :: t

/-- Go `strings.Split(s, sep)` for a one-character separator (the program splits on
"," and on "." only): the substrings between the separators, `[s]` when there is none. -/
def strings.Split (s : String) (sep : Char) : List String :=
  (splitChars sep s.data).map String.mk

/-- Go `strings.Join(a, sep)`. -/
def strings.Join : List String → String → String
  | [], _ => ""
  | [a], _ => a
  | a :: b :: rest, sep => a ++ sep ++ strings.Join (b :: rest) sep

/-- Go `net.JoinHostPort(host, port)`: a host with a colon or a percent sign is
bracketed. -/
def net.JoinHostPort (host port : String) : String :=
  if host.data.contains ':' || host.data.contains '%' then
    "[" ++ host ++ "]:" ++ port
  else
    host ++ ":" ++ port

/-- The dotted-decimal text of four octets: what `ip.String()` returns for an address
whose `To4()` is not nil. -/
def dotted (q : Nat × Nat × Nat × Nat) : String :=
  toString q.1 ++ "." ++ toString q.2.1 ++ "." ++ toString q.2.2.1 ++ "." ++ toString q.2.2.2

/-! ## Data model -/

/-- The environment map `map[string]string`. -/
abbrev Env := AList (fun _ : String => String)

/-- The struct `options`: config options set by env vars. -/
structure options where
  DataDir : String
  LogLevel : String
  Path : String
  Discovery : String
  Peers : String
  Members : Int
  Name : String
  ListenPeerURLs : String
  ListenClientURLs : String
  deriving DecidableEq

/-- The struct `config`: config we build from env. -/
structure config where
  DataDir : String
  Path : String
  Discovery : String
  Peers : List String
  Members : Int
  Name : String
  ListenPeerURLs : List String
  ListenClientURLs : List String
  Addresses : List String
  env : Env
  deriving DecidableEq

/-- The fields of `client.Member` of the etcd client library. -/
structure client.Member where
  ID : String
  Name : String
  PeerURLs : List String
  ClientURLs : List String
  deriving DecidableEq

/-- What `getAddresses` observes of a `net.IP`: the octets of `To4()` (`none` for nil)
and the two classification methods. -/
structure net.IP where
  To4 : Option (Nat × Nat × Nat × Nat)
  IsLoopback : Bool
  IsGlobalUnicast : Bool
  deriving DecidableEq

/-- An error of package `os`: its message and whether `os.IsNotExist` holds of it. -/
structure OsError where
  msg : String
  notExist : Bool
  deriving DecidableEq

/-- Go `os.IsNotExist(err)`; false of the nil error. -/
def os.IsNotExist : Option OsError → Bool
  | none => false
  | some e => e.notExist

/-- The answers of everything outside the program. -/
structure World where
  /-- The call `envconfig.Process("etcd", &o)`: the options filled in, or an error. -/
  envconfigProcess : options → Except String options
  /-- The error of `log.ParseLevel(l)`. -/
  parseLevel : String → Option String
  /-- The call `os.Hostname()`. -/
  hostname : Except String String
  /-- The call `exec.LookPath(file)`. -/
  lookPath : String → Except String String
  /-- The call `net.InterfaceAddrs()`, every address as its `String()`. -/
  interfaceAddrs : Except String (List String)
  /-- The call `net.ParseCIDR(s)`; `none` when it returns an error. -/
  parseCIDR : String → Option net.IP
  /-- The call `filepath.Join(dir, elem)`. -/
  filepathJoin : String → String → String
  /-- The error of `os.Stat(path)`. -/
  stat : String → Option OsError
  /-- The error of `client.New` for a list of endpoints. -/
  clientNew : List String → Option String
  /-- The members API call `List` through a client for the endpoints. -/
  membersList : List String → Except String (List client.Member)
  /-- The error of the members API call `Add(peerURL)` through a client for the endpoints. -/
  membersAdd : List String → String → Option String
  /-- The error with which `syscall.Exec(path, argv, envv)` returns; `none` when the
  process image is replaced and the call never returns. -/
  exec : String → List String → List String → Option String

/-- A call that leaves the process. -/
inductive Event where
  | stat (path : String)
  | membersList (endpoints : List String)
  | membersAdd (endpoints : List String) (peerURL : String)
  | exec (path : String) (argv : List String) (envv : List String)
  deriving DecidableEq

/-- How a run ends: in `runEtcd`, entered with the configuration `c` (generic keys
merged) and with `result` the error of `syscall.Exec` (`none`: the process is now etcd;
`some err`: `log.Fatal(err)`), or in `log.Fatal(msg)` anywhere else. -/
inductive Outcome where
  | handoff (c : config) (result : Option String)
  | fatal (msg : String)
  deriving DecidableEq

/-- A finished run: the outside calls made, in order, and the way it ended. -/
structure Run where
  trace : List Event
  outcome : Outcome
  deriving DecidableEq

/-- The literal `options` value `main` starts from. -/
def defaultOptions : options :=
  { DataDir := "/var/lib/etcd", LogLevel := "info", Path := "", Discovery := "", Peers := "",
    Members := 5, Name := "", ListenPeerURLs := "", ListenClientURLs := "" }

/-! ## The methods of `config` -/

/-- The assignment `c.env[k] = v`. -/
def config.setEnv (c : config) (k v : String) : config :=
  { c with env := c.env.insert k v }

/-- The inner loop of `setInitialCluster`: one `name=url` entry per peer URL. -/
def appendMember (conf : List String) (name : String) : List String → List String
  | [] => conf
  | u :: us => appendMember (conf ++ [name ++ "=" ++ u]) name us

/-- The outer loop of `setInitialCluster` over the members. -/
def appendMembers (conf : List String) : List client.Member → List String
  | [] => conf
  | memb :: rest => appendMembers (appendMember conf memb.Name memb.PeerURLs) rest

/-- The slice `conf` that `setInitialCluster` builds before joining it. -/
def config.initialClusterConf (c : config) (members : List client.Member) : List String :=
  let members := members ++ [{ ID := "", Name := c.Name, PeerURLs := c.ListenPeerURLs, ClientURLs := [] }]
  appendMembers [] members

/-- The method `setInitialCluster`; its error is always nil. -/
def config.setInitialCluster (c : config) (members : List client.Member) : Except String config :=
  .ok (c.setEnv "ETCD_INITIAL_CLUSTER" (strings.Join (c.initialClusterConf members) ","))

/-- The slice `envv` of `runEtcd`: one `k=v` string per entry of the map.  Go ranges over
a map in no fixed order; the order here is that of the association list. -/
def envvOf (env : Env) : List String :=
  env.entries.map (fun e => strings.Join [e.1, e.2] "=")

/-- The five assignments at the top of `runEtcd`. -/
def config.mergeGeneric (c : config) : config :=
  let c := c.setEnv "ETCD_DATA_DIR" c.DataDir
  let c := c.setEnv "ETCD_NAME" c.Name
  let c := c.setEnv "ETCD_LISTEN_PEER_URLS" (strings.Join c.ListenPeerURLs ",")
  let c := c.setEnv "ETCD_LISTEN_CLIENT_URLS" (strings.Join c.ListenClientURLs ",")
  c.setEnv "ETCD_ADVERTISE_CLIENT_URLS" (strings.Join c.ListenClientURLs ",")

/-- The method `runEtcd`, which never returns: after the generic merge it calls
`syscall.Exec`, and a failed exec is fatal.  `trace` holds the calls made before. -/
def config.runEtcd (c : config) (w : World) (trace : List Event) : Run :=
  let c := c.mergeGeneric
  let envv := envvOf c.env
  { trace := trace ++ [Event.exec c.Path ["etcd"] envv],
    outcome := Outcome.handoff c (w.exec c.Path ["etcd"] envv) }

/-- The method `addMember`: its error, and the API call it made if it got that far. -/
def config.addMember (c : config) (w : World) : Option String × List Event :=
  match w.clientNew c.Peers with
  | some err => (some err, [])
  | none =>
    let peerURL := strings.Join c.ListenPeerURLs ","
    (w.membersAdd c.Peers peerURL, [Event.membersAdd c.Peers peerURL])

/-- The method `getMembers`: its result, and the API call it made if it got that far. -/
def config.getMembers (c : config) (w : World) : Except String (List client.Member) × List Event :=
  match w.clientNew c.Peers with
  | some err => (.error err, [])
  | none => (w.membersList c.Peers, [Event.membersList c.Peers])

/-- The loop of `getAddresses` over the interface addresses. -/
def collectIPs (w : World) (ips : List String) : List String → List String
  | [] => ips
  | a :: rest =>
    match w.parseCIDR a with
    | none => collectIPs w ips rest
    | some ip =>
      match ip.To4 with
      | none => collectIPs w ips rest
      | some q =>
        if ip.IsLoopback || ip.IsGlobalUnicast then collectIPs w (ips ++ [dotted q]) rest
        else collectIPs w ips rest

/-- The method `getAddresses`: the addresses and the configuration with its cache filled. -/
def config.getAddresses (c : config) (w : World) : Except String (List String × config) :=
  if c.Addresses.length = 0 then
    match w.interfaceAddrs with
    | .error err => .error err
    | .ok addrs =>
      let ips := collectIPs w [] addrs
      if ips.length = 0 then .error "did not find any valid addresses"
      else .ok (ips, { c with Addresses := ips })
  else .ok (c.Addresses, c)

/-- The loop of `setClientURLS` and `setPeerURLs` over the addresses. -/
def appendURLs (port : String) (urls : List String) : List String → List String
  | [] => urls
  | ip :: rest => appendURLs port (urls ++ ["http://" ++ net.JoinHostPort ip port]) rest

/-- The method `setClientURLS`. -/
def config.setClientURLS (c : config) (w : World) (u : String) : Except String config :=
  if u ≠ "" then .ok { c with ListenClientURLs := strings.Split u ',' }
  else
    match c.getAddresses w with
    | .error err => .error err
    | .ok (addrs, c) => .ok { c with ListenClientURLs := appendURLs "2380" [] addrs }

/-- The method `setPeerURLs`. -/
def config.setPeerURLs (c : config) (w : World) (u : String) : Except String config :=
  if u ≠ "" then .ok { c with ListenPeerURLs := strings.Split u ',' }
  else
    match c.getAddresses w with
    | .error err => .error err
    | .ok (addrs, c) => .ok { c with ListenPeerURLs := appendURLs "2379" [] addrs }

/-- The method `setName`; `strings.Split` never returns an empty slice, so the index 0
exists. -/
def config.setName (c : config) (w : World) : Except String config :=
  if c.Name = "" then
    match w.hostname with
    | .error err => .error err
    | .ok hn => .ok { c with Name := (strings.Split hn '.').headD "" }
  else .ok { c with Name := (strings.Split c.Name '.').headD "" }

/-- The function `setLogLevel`: its error. -/
def setLogLevel (w : World) (l : String) : Option String :=
  w.parseLevel l

/-- The method `setPeers`. -/
def config.setPeers (c : config) (peers : String) : Except String config :=
  if peers = "" then .error "peers cannot be blank"
  else .ok { c with Peers := strings.Split peers ',' }

/-- The method `setPath`. -/
def config.setPath (c : config) (w : World) : Except String config :=
  if c.Path = "" then
    match w.lookPath "etcd" with
    | .error err => .error err
    | .ok path => .ok { c with Path := path }
  else .ok c

/-- The method `config` of `options`: generate a config from options. -/
def options.config (o : options) (w : World) : Except String EtcdHelper.config :=
  match setLogLevel w o.LogLevel with
  | some err => .error ("failed to set log level: " ++ err)
  | none =>
    let c : EtcdHelper.config :=
      { DataDir := o.DataDir, Path := o.Path, Discovery := o.Discovery, Peers := [],
        Members := o.Members, Name := o.Name, ListenPeerURLs := [], ListenClientURLs := [],
        Addresses := [], env := ∅ }
    match c.setName w with
    | .error err => .error ("failed to set name: " ++ err)
    | .ok c =>
      match c.setPath w with
      | .error err => .error ("failed to set etcd path: " ++ err)
      | .ok c =>
        match c.setClientURLS w o.ListenClientURLs with
        | .error err => .error ("failed to set client URLs: " ++ err)
        | .ok c =>
          match c.setPeerURLs w o.ListenPeerURLs with
          | .error err => .error ("failed to set peer URLs: " ++ err)
          | .ok c => .ok c

/-! ## The function `main` -/

/-- The loop of `main` over the marker names: a run that ended inside the loop, or the
trace with which the loop was left. -/
def markerLoop (w : World) (c : config) : List String → List Event → Run ⊕ List Event
  | [], trace => .inr trace
  | d :: rest, trace =>
    let path := w.filepathJoin c.DataDir d
    let err := w.stat path
    let trace := trace ++ [Event.stat path]
    if err = none then .inl (c.runEtcd w trace)
    else if !os.IsNotExist err then .inl { trace := trace, outcome := Outcome.fatal ((err.map OsError.msg).getD "") }
    else markerLoop w c rest trace

/-- The loop of `main` over the fetched members: whether one of them has the local name. -/
def alreadyMember (c : config) : List client.Member → Bool
  | [] => false
  | member :: rest => if member.Name = c.Name then true else alreadyMember c rest

/-- The function `main`, from the default options to the end of the process. -/
def main (w : World) : Run :=
  match w.envconfigProcess defaultOptions with
  | .error err => { trace := [], outcome := Outcome.fatal err }
  | .ok o =>
    match o.config w with
    | .error err => { trace := [], outcome := Outcome.fatal err }
    | .ok c =>
      if c.Discovery ≠ "" then (c.setEnv "ETCD_DISCOVERY" c.Discovery).runEtcd w []
      else
        match markerLoop w c ["member", "proxy"] [] with
        | .inl r => r
        | .inr trace =>
          match c.setPeers o.Peers with
          | .error err => { trace := trace, outcome := Outcome.fatal err }
          | .ok c =>
            match c.getMembers w with
            | (.error err, calls) => { trace := trace ++ calls, outcome := Outcome.fatal err }
            | (.ok members, calls) =>
              if alreadyMember c members then c.runEtcd w (trace ++ calls)
              else
                match c.setInitialCluster members with
                | .error err => { trace := trace ++ calls, outcome := Outcome.fatal err }
                | .ok c =>
                  if (members.length : Int) ≥ c.Members then
                    (c.setEnv "ETCD_PROXY" "on").runEtcd w (trace ++ calls)
                  else
                    match c.addMember w with
                    | (some err, calls2) =>
                      { trace := trace ++ calls ++ calls2,
                        outcome := Outcome.fatal ("failed to add new member: " ++ err) }
                    | (none, calls2) =>
                      (c.setEnv "ETCD_INITIAL_CLUSTER_STATE" "existing").runEtcd w
                        (trace ++ calls ++ calls2)

/-! ## Concrete worlds, for evaluating the program -/

/-- The error `os.Stat` gives for a missing path. -/
def enoent : OsError := { msg := "no such file or directory", notExist := true }

/-- The error `os.Stat` gives for a path that may not be searched. -/
def eacces : OsError := { msg := "permission denied", notExist := false }

/-- A member named `name` with the one peer URL `url`. -/
def memberOf (name url : String) : client.Member :=
  { ID := "", Name := name, PeerURLs := [url], ClientURLs := [] }

/-- A host named n2 with a loopback, a private and an IPv6 address, an empty data
directory, and a one-member cluster (n1) reachable at the configured peer; the
environment asks for three members. -/
def sampleWorld : World :=
  { envconfigProcess := fun o =>
      .ok { o with Peers := "http://10.0.0.1:2379", Members := 3, Name := "n2" },
    parseLevel := fun _ => none,
    hostname := .ok "n2.example.com",
    lookPath := fun _ => .ok "/usr/bin/etcd",
    interfaceAddrs := .ok ["127.0.0.1/8", "10.0.0.2/24", "fe80::1/64"],
    parseCIDR := fun s =>
      if s = "127.0.0.1/8" then
        some { To4 := some (127, 0, 0, 1), IsLoopback := true, IsGlobalUnicast := false }
      else if s = "10.0.0.2/24" then
        some { To4 := some (10, 0, 0, 2), IsLoopback := false, IsGlobalUnicast := true }
      else if s = "fe80::1/64" then
        some { To4 := none, IsLoopback := false, IsGlobalUnicast := false }
      else none,
    filepathJoin := fun dir d => dir ++ "/" ++ d,
    stat := fun _ => some enoent,
    clientNew := fun _ => none,
    membersList := fun _ => .ok [memberOf "n1" "http://10.0.0.1:2380"],
    membersAdd := fun _ _ => none,
    exec := fun _ _ _ => none }

/-- The sample world with three members (n1, n3, n4) already in the cluster. -/
def fullWorld : World :=
  { sampleWorld with
    membersList := fun _ =>
      .ok [memberOf "n1" "http://10.0.0.1:2380", memberOf "n3" "http://10.0.0.3:2380",
           memberOf "n4" "http://10.0.0.4:2380"] }

/-- The sample world with the local name n2 already among five members. -/
def rejoinWorld : World :=
  { sampleWorld with
    membersList := fun _ =>
      .ok [memberOf "n1" "http://10.0.0.1:2380", memberOf "n2" "http://10.0.0.2:2380",
           memberOf "n3" "http://10.0.0.3:2380", memberOf "n4" "http://10.0.0.4:2380",
           memberOf "n5" "http://10.0.0.5:2380"] }

/-- The sample world with no peers configured and a member directory on disk. -/
def restartWorld : World :=
  { sampleWorld with
    envconfigProcess := fun o => .ok { o with Name := "n2" },
    stat := fun p => if p = "/var/lib/etcd/member" then none else some enoent }

/-- The sample world with no peers configured and an empty data directory. -/
def blankPeersWorld : World :=
  { sampleWorld with envconfigProcess := fun o => .ok { o with Name := "n2" } }

/-- The sample world with a data directory whose proxy entry cannot be examined. -/
def unreadableWorld : World :=
  { sampleWorld with
    stat := fun p => if p = "/var/lib/etcd/proxy" then some eacces else some enoent }

/-- The sample world with a discovery token and a member directory on disk. -/
def discoveryWorld : World :=
  { sampleWorld with
    envconfigProcess := fun o =>
      .ok { o with Discovery := "https://discovery.etcd.io/abc", Name := "n2" },
    stat := fun _ => none }

/-- The sample world with a cluster that refuses the new member. -/
def refusingWorld : World :=
  { sampleWorld with membersAdd := fun _ _ => some "client: etcd cluster is unavailable" }

/-- The configuration `config()` builds in the sample world. -/
def sampleConfig : config :=
  { DataDir := "/var/lib/etcd", Path := "/usr/bin/etcd", Discovery := "", Peers := [],
    Members := 3, Name := "n2",
    ListenPeerURLs := ["http://127.0.0.1:2379", "http://10.0.0.2:2379"],
    ListenClientURLs := ["http://127.0.0.1:2380", "http://10.0.0.2:2380"],
    Addresses := ["127.0.0.1", "10.0.0.2"], env := ∅ }

/-- The configuration with which `config()` calls `setClientURLS` in the sample world:
no URLs yet and nothing cached. -/
def freshConfig : config :=
  { sampleConfig with ListenPeerURLs := [], ListenClientURLs := [], Addresses := [] }

/-- The options `envconfig.Process` yields in the sample world. -/
def sampleOptions : options :=
  { defaultOptions with Peers := "http://10.0.0.1:2379", Members := 3, Name := "n2" }

/-- A member that advertises two peer URLs. -/
def twoURLMember : client.Member :=
  { ID := "", Name := "n1", PeerURLs := ["http://10.0.0.1:2380", "http://192.168.0.1:2380"],
    ClientURLs := [] }

/-- A local configuration named n2 with one peer URL. -/
def oneURLConfig : config :=
  { sampleConfig with ListenPeerURLs := ["http://10.0.0.2:2380"] }


/-! ## The environment map -/

theorem setEnv_lookup_same (c : config) (k v : String) :
    (c.setEnv k v).env.lookup k = some v := by
  simp [config.setEnv]

theorem setEnv_lookup_ne (c : config) (k k' v : String) (h : k' ≠ k) :
    (c.setEnv k v).env.lookup k' = c.env.lookup k' := by
  simp [config.setEnv, AList.lookup_insert_ne h]

/-- The generic merge leaves every key other than its five alone. -/
theorem mergeGeneric_lookup_other (c : config) (k : String)
    (h1 : k ≠ "ETCD_DATA_DIR") (h2 : k ≠ "ETCD_NAME") (h3 : k ≠ "ETCD_LISTEN_PEER_URLS")
    (h4 : k ≠ "ETCD_LISTEN_CLIENT_URLS") (h5 : k ≠ "ETCD_ADVERTISE_CLIENT_URLS") :
    c.mergeGeneric.env.lookup k = c.env.lookup k := by
  simp [config.mergeGeneric, config.setEnv, AList.lookup_insert_ne, h1, h2, h3, h4, h5]

theorem mergeGeneric_lookup_generic (c : config) :
    c.mergeGeneric.env.lookup "ETCD_DATA_DIR" = some c.DataDir ∧
    c.mergeGeneric.env.lookup "ETCD_NAME" = some c.Name ∧
    c.mergeGeneric.env.lookup "ETCD_LISTEN_PEER_URLS" = some (strings.Join c.ListenPeerURLs ",") ∧
    c.mergeGeneric.env.lookup "ETCD_LISTEN_CLIENT_URLS"
      = some (strings.Join c.ListenClientURLs ",") ∧
    c.mergeGeneric.env.lookup "ETCD_ADVERTISE_CLIENT_URLS"
      = some (strings.Join c.ListenClientURLs ",") := by
  refine ⟨?_, ?_, ?_, ?_, ?_⟩ <;>
    simp [config.mergeGeneric, config.setEnv, AList.lookup_insert_ne]

theorem mergeGeneric_fields (c : config) :
    c.mergeGeneric.Path = c.Path ∧ c.mergeGeneric.Peers = c.Peers ∧
    c.mergeGeneric.DataDir = c.DataDir ∧ c.mergeGeneric.Name = c.Name := by
  simp [config.mergeGeneric, config.setEnv]

theorem runEtcd_trace (c : config) (w : World) (t : List Event) :
    (c.runEtcd w t).trace = t ++ [Event.exec c.Path ["etcd"] (envvOf c.mergeGeneric.env)] := by
  simp [config.runEtcd, (mergeGeneric_fields c).1]

theorem runEtcd_outcome (c : config) (w : World) (t : List Event) :
    (c.runEtcd w t).outcome
      = Outcome.handoff c.mergeGeneric (w.exec c.Path ["etcd"] (envvOf c.mergeGeneric.env)) := by
  simp [config.runEtcd, (mergeGeneric_fields c).1]


/-! ## What `config()` leaves untouched -/

theorem getAddresses_core (c c' : config) (w : World) (addrs : List String)
    (h : c.getAddresses w = .ok (addrs, c')) :
    c'.DataDir = c.DataDir ∧ c'.Path = c.Path ∧ c'.Discovery = c.Discovery ∧
    c'.Members = c.Members ∧ c'.Name = c.Name ∧ c'.Peers = c.Peers ∧ c'.env = c.env ∧
    c'.ListenPeerURLs = c.ListenPeerURLs ∧ c'.ListenClientURLs = c.ListenClientURLs ∧
    c'.Addresses = addrs := by
  unfold config.getAddresses at h
  split at h
  · split at h
    · cases h
    · dsimp only at h
      split at h
      · cases h
      · injection h with h
        injection h with h1 h2
        subst h1 h2
        simp
  · injection h with h
    injection h with h1 h2
    subst h1 h2
    simp

theorem setName_core (c c' : config) (w : World) (h : c.setName w = .ok c') :
    c'.DataDir = c.DataDir ∧ c'.Discovery = c.Discovery ∧ c'.Members = c.Members ∧
    c'.Peers = c.Peers ∧ c'.env = c.env := by
  unfold config.setName at h
  split at h
  · split at h
    · cases h
    · injection h with h; subst h; simp
  · injection h with h; subst h; simp

theorem setPath_core (c c' : config) (w : World) (h : c.setPath w = .ok c') :
    c'.DataDir = c.DataDir ∧ c'.Discovery = c.Discovery ∧ c'.Members = c.Members ∧
    c'.Peers = c.Peers ∧ c'.env = c.env := by
  unfold config.setPath at h
  split at h
  · split at h
    · cases h
    · injection h with h; subst h; simp
  · injection h with h; subst h; simp

theorem setClientURLS_core (c c' : config) (w : World) (u : String)
    (h : c.setClientURLS w u = .ok c') :
    c'.DataDir = c.DataDir ∧ c'.Discovery = c.Discovery ∧ c'.Members = c.Members ∧
    c'.Peers = c.Peers ∧ c'.env = c.env := by
  unfold config.setClientURLS at h
  split at h
  · injection h with h; subst h; simp
  · split at h
    · cases h
    · rename_i addrs c1 hga
      obtain ⟨h1, -, h3, h4, -, h6, h7, -⟩ := getAddresses_core c c1 w addrs hga
      injection h with h; subst h; simp [h1, h3, h4, h6, h7]

theorem setPeerURLs_core (c c' : config) (w : World) (u : String)
    (h : c.setPeerURLs w u = .ok c') :
    c'.DataDir = c.DataDir ∧ c'.Discovery = c.Discovery ∧ c'.Members = c.Members ∧
    c'.Peers = c.Peers ∧ c'.env = c.env := by
  unfold config.setPeerURLs at h
  split at h
  · injection h with h; subst h; simp
  · split at h
    · cases h
    · rename_i addrs c1 hga
      obtain ⟨h1, -, h3, h4, -, h6, h7, -⟩ := getAddresses_core c c1 w addrs hga
      injection h with h; subst h; simp [h1, h3, h4, h6, h7]

/-- The configuration `config()` returns carries the data directory, the discovery token
and the member count of the options, no peers and an empty environment map. -/
theorem config_fresh (o : options) (w : World) (c : config) (h : o.config w = .ok c) :
    c.DataDir = o.DataDir ∧ c.Discovery = o.Discovery ∧ c.Members = o.Members ∧
    c.Peers = [] ∧ c.env = ∅ := by
  unfold options.config at h
  split at h
  · cases h
  · dsimp only at h
    split at h
    · cases h
    · rename_i c1 h1
      split at h
      · cases h
      · rename_i c2 h2
        split at h
        · cases h
        · rename_i c3 h3
          split at h
          · cases h
          · rename_i c4 h4
            injection h with h
            subst h
            obtain ⟨a1, a2, a3, a4, a5⟩ := setName_core _ _ _ h1
            obtain ⟨b1, b2, b3, b4, b5⟩ := setPath_core _ _ _ h2
            obtain ⟨d1, d2, d3, d4, d5⟩ := setClientURLS_core _ _ _ _ h3
            obtain ⟨e1, e2, e3, e4, e5⟩ := setPeerURLs_core _ _ _ _ h4
            refine ⟨?_, ?_, ?_, ?_, ?_⟩
            · rw [e1, d1, b1, a1]
            · rw [e2, d2, b2, a2]
            · rw [e3, d3, b3, a3]
            · rw [e4, d4, b4, a4]
            · rw [e5, d5, b5, a5]


/-! ## The handoff -/

/-- C10: whatever map was accumulated, the environment `runEtcd` passes to `syscall.Exec`
is the rendering of a map that sends ETCD_DATA_DIR to the data directory, ETCD_NAME to the
name, ETCD_LISTEN_PEER_URLS to the comma-joined peer URLs, and ETCD_LISTEN_CLIENT_URLS and
ETCD_ADVERTISE_CLIENT_URLS to the comma-joined client URLs; the role-specific keys
(ETCD_DISCOVERY, ETCD_INITIAL_CLUSTER, ETCD_PROXY, ETCD_INITIAL_CLUSTER_STATE), like every
key other than the five generic ones, keep the binding they had (or stay absent); and each
key of the map occurs exactly once, giving one string `key=value` per key. -/
theorem c10_runEtcd_environment (c : config) (w : World) (t : List Event) :
    ∃ c' : config,
      (c.runEtcd w t).outcome = Outcome.handoff c' (w.exec c.Path ["etcd"] (envvOf c'.env)) ∧
      (c.runEtcd w t).trace = t ++ [Event.exec c.Path ["etcd"] (envvOf c'.env)] ∧
      c'.env.lookup "ETCD_DATA_DIR" = some c.DataDir ∧
      c'.env.lookup "ETCD_NAME" = some c.Name ∧
      c'.env.lookup "ETCD_LISTEN_PEER_URLS" = some (strings.Join c.ListenPeerURLs ",") ∧
      c'.env.lookup "ETCD_LISTEN_CLIENT_URLS" = some (strings.Join c.ListenClientURLs ",") ∧
      c'.env.lookup "ETCD_ADVERTISE_CLIENT_URLS" = some (strings.Join c.ListenClientURLs ",") ∧
      c'.env.lookup "ETCD_DISCOVERY" = c.env.lookup "ETCD_DISCOVERY" ∧
      c'.env.lookup "ETCD_INITIAL_CLUSTER" = c.env.lookup "ETCD_INITIAL_CLUSTER" ∧
      c'.env.lookup "ETCD_PROXY" = c.env.lookup "ETCD_PROXY" ∧
      c'.env.lookup "ETCD_INITIAL_CLUSTER_STATE" = c.env.lookup "ETCD_INITIAL_CLUSTER_STATE" ∧
      (∀ k : String,
        k ∉ ["ETCD_DATA_DIR", "ETCD_NAME", "ETCD_LISTEN_PEER_URLS", "ETCD_LISTEN_CLIENT_URLS",
             "ETCD_ADVERTISE_CLIENT_URLS"] →
        c'.env.lookup k = c.env.lookup k) ∧
      envvOf c'.env = c'.env.entries.map (fun e => e.1 ++ "=" ++ e.2) ∧
      (∀ k ∈ c'.env.keys, c'.env.keys.count k = 1) ∧
      (envvOf c'.env).length = c'.env.keys.length := by
  obtain ⟨g1, g2, g3, g4, g5⟩ := mergeGeneric_lookup_generic c
  refine ⟨c.mergeGeneric, runEtcd_outcome c w t, runEtcd_trace c w t, g1, g2, g3, g4, g5,
    ?_, ?_, ?_, ?_, ?_, ?_, ?_, ?_⟩
  · exact mergeGeneric_lookup_other c _ (by decide) (by decide) (by decide) (by decide) (by decide)
  · exact mergeGeneric_lookup_other c _ (by decide) (by decide) (by decide) (by decide) (by decide)
  · exact mergeGeneric_lookup_other c _ (by decide) (by decide) (by decide) (by decide) (by decide)
  · exact mergeGeneric_lookup_other c _ (by decide) (by decide) (by decide) (by decide) (by decide)
  · intro k hk
    simp only [List.mem_cons, List.mem_singleton, not_or, List.not_mem_nil, or_false] at hk
    exact mergeGeneric_lookup_other c k hk.1 hk.2.1 hk.2.2.1 hk.2.2.2.1 hk.2.2.2.2
  · simp [envvOf, strings.Join]
  · intro k hk
    exact List.count_eq_one_of_mem c.mergeGeneric.env.keys_nodup hk
  · simp [envvOf, AList.keys, List.keys]


/-! ## The decision engine: paths that end before the peers are parsed -/

theorem lookup_fresh_handoff (c : config) (k : String) (hE : c.env = ∅)
    (h1 : k ≠ "ETCD_DATA_DIR") (h2 : k ≠ "ETCD_NAME") (h3 : k ≠ "ETCD_LISTEN_PEER_URLS")
    (h4 : k ≠ "ETCD_LISTEN_CLIENT_URLS") (h5 : k ≠ "ETCD_ADVERTISE_CLIENT_URLS") :
    c.mergeGeneric.env.lookup k = none := by
  rw [mergeGeneric_lookup_other c k h1 h2 h3 h4 h5, hE]
  exact AList.lookup_empty k

/-- C8: with a non-empty discovery token the run is a single call of `syscall.Exec`, with
an environment that binds ETCD_DISCOVERY to the token and has none of ETCD_PROXY,
ETCD_INITIAL_CLUSTER_STATE and ETCD_INITIAL_CLUSTER; no marker is examined, the member
list is not queried and no member is added, whatever the world answers. -/
theorem c8_discovery_token (w : World) (o : options) (c : config)
    (hproc : w.envconfigProcess defaultOptions = .ok o)
    (hconf : o.config w = .ok c)
    (htoken : o.Discovery ≠ "") :
    ∃ c' : config,
      (main w).outcome = Outcome.handoff c' (w.exec c.Path ["etcd"] (envvOf c'.env)) ∧
      (main w).trace = [Event.exec c.Path ["etcd"] (envvOf c'.env)] ∧
      c'.env.lookup "ETCD_DISCOVERY" = some o.Discovery ∧
      c'.env.lookup "ETCD_PROXY" = none ∧
      c'.env.lookup "ETCD_INITIAL_CLUSTER_STATE" = none ∧
      c'.env.lookup "ETCD_INITIAL_CLUSTER" = none ∧
      (∀ p, Event.stat p ∉ (main w).trace) ∧
      (∀ p, Event.membersList p ∉ (main w).trace) ∧
      (∀ p u, Event.membersAdd p u ∉ (main w).trace) := by
  obtain ⟨-, hDisc, -, -, hE⟩ := config_fresh o w c hconf
  have hd : c.Discovery ≠ "" := by rw [hDisc]; exact htoken
  have hmain : main w = (c.setEnv "ETCD_DISCOVERY" c.Discovery).runEtcd w [] := by
    simp [main, hproc, hconf, hd]
  have hother : ∀ k : String, k ≠ "ETCD_DISCOVERY" → k ≠ "ETCD_DATA_DIR" → k ≠ "ETCD_NAME" →
      k ≠ "ETCD_LISTEN_PEER_URLS" → k ≠ "ETCD_LISTEN_CLIENT_URLS" →
      k ≠ "ETCD_ADVERTISE_CLIENT_URLS" →
      (c.setEnv "ETCD_DISCOVERY" c.Discovery).mergeGeneric.env.lookup k = none := by
    intro k h0 h1 h2 h3 h4 h5
    rw [mergeGeneric_lookup_other _ k h1 h2 h3 h4 h5, setEnv_lookup_ne _ _ _ _ h0, hE]
    exact AList.lookup_empty k
  have htrace : (main w).trace
      = [Event.exec c.Path ["etcd"]
          (envvOf (c.setEnv "ETCD_DISCOVERY" c.Discovery).mergeGeneric.env)] := by
    rw [hmain, runEtcd_trace]; rfl
  refine ⟨(c.setEnv "ETCD_DISCOVERY" c.Discovery).mergeGeneric, ?_, htrace, ?_, ?_, ?_, ?_,
    ?_, ?_, ?_⟩
  · rw [hmain, runEtcd_outcome]; rfl
  · rw [mergeGeneric_lookup_other _ _ (by decide) (by decide) (by decide) (by decide)
      (by decide), setEnv_lookup_same, hDisc]
  · exact hother _ (by decide) (by decide) (by decide) (by decide) (by decide) (by decide)
  · exact hother _ (by decide) (by decide) (by decide) (by decide) (by decide) (by decide)
  · exact hother _ (by decide) (by decide) (by decide) (by decide) (by decide) (by decide)
  · intro p; rw [htrace]; simp
  · intro p; rw [htrace]; simp
  · intro p u; rw [htrace]; simp

/-- The discovery path in a world with a token, a member directory on disk and a reachable cluster. -/
theorem c8_discovery_token_witness :
    discoveryWorld.envconfigProcess defaultOptions
        = .ok { defaultOptions with Discovery := "https://discovery.etcd.io/abc", Name := "n2" } ∧
    ∃ c' : config,
      (main discoveryWorld).outcome
        = Outcome.handoff c' (discoveryWorld.exec "/usr/bin/etcd" ["etcd"] (envvOf c'.env)) ∧
      (main discoveryWorld).trace = [Event.exec "/usr/bin/etcd" ["etcd"] (envvOf c'.env)] ∧
      c'.env.lookup "ETCD_DISCOVERY" = some "https://discovery.etcd.io/abc" ∧
      c'.env.lookup "ETCD_PROXY" = none ∧
      c'.env.lookup "ETCD_INITIAL_CLUSTER_STATE" = none ∧
      c'.env.lookup "ETCD_INITIAL_CLUSTER" = none ∧
      (∀ p, Event.stat p ∉ (main discoveryWorld).trace) ∧
      (∀ p, Event.membersList p ∉ (main discoveryWorld).trace) ∧
      (∀ p u, Event.membersAdd p u ∉ (main discoveryWorld).trace) :=
  ⟨rfl, c8_discovery_token discoveryWorld
    { defaultOptions with Discovery := "https://discovery.etcd.io/abc", Name := "n2" }
    { sampleConfig with Discovery := "https://discovery.etcd.io/abc", Members := 5 }
    rfl rfl (by decide)⟩


/-- The five ways the loop over the two markers can go. -/
theorem markerLoop_cases (w : World) (c : config) :
    (w.stat (w.filepathJoin c.DataDir "member") = none ∧
      markerLoop w c ["member", "proxy"] []
        = .inl (c.runEtcd w [Event.stat (w.filepathJoin c.DataDir "member")])) ∨
    (∃ e, w.stat (w.filepathJoin c.DataDir "member") = some e ∧ e.notExist = false ∧
      markerLoop w c ["member", "proxy"] []
        = .inl { trace := [Event.stat (w.filepathJoin c.DataDir "member")],
                 outcome := Outcome.fatal e.msg }) ∨
    (os.IsNotExist (w.stat (w.filepathJoin c.DataDir "member")) = true ∧
      w.stat (w.filepathJoin c.DataDir "proxy") = none ∧
      markerLoop w c ["member", "proxy"] []
        = .inl (c.runEtcd w [Event.stat (w.filepathJoin c.DataDir "member"),
                             Event.stat (w.filepathJoin c.DataDir "proxy")])) ∨
    (os.IsNotExist (w.stat (w.filepathJoin c.DataDir "member")) = true ∧
      ∃ e, w.stat (w.filepathJoin c.DataDir "proxy") = some e ∧ e.notExist = false ∧
      markerLoop w c ["member", "proxy"] []
        = .inl { trace := [Event.stat (w.filepathJoin c.DataDir "member"),
                           Event.stat (w.filepathJoin c.DataDir "proxy")],
                 outcome := Outcome.fatal e.msg }) ∨
    (os.IsNotExist (w.stat (w.filepathJoin c.DataDir "member")) = true ∧
      os.IsNotExist (w.stat (w.filepathJoin c.DataDir "proxy")) = true ∧
      markerLoop w c ["member", "proxy"] []
        = .inr [Event.stat (w.filepathJoin c.DataDir "member"),
                Event.stat (w.filepathJoin c.DataDir "proxy")]) := by
  rcases hm : w.stat (w.filepathJoin c.DataDir "member") with _ | em
  · left
    simp [markerLoop, hm]
  · rcases hmn : em.notExist with _ | _
    · right; left
      exact ⟨em, rfl, hmn, by simp [markerLoop, hm, os.IsNotExist, hmn]⟩
    · right; right
      rcases hp : w.stat (w.filepathJoin c.DataDir "proxy") with _ | ep
      · left
        simp [markerLoop, hm, hp, os.IsNotExist, hmn]
      · rcases hpn : ep.notExist with _ | _
        · right; left
          exact ⟨by simp [os.IsNotExist, hmn], ep, rfl, hpn,
            by simp [markerLoop, hm, hp, os.IsNotExist, hmn, hpn]⟩
        · right; right
          simp [markerLoop, hm, hp, os.IsNotExist, hmn, hpn]

/-- Without a discovery token `main` goes through the marker loop first. -/
theorem main_no_discovery_inl (w : World) (o : options) (c : config) (r : Run)
    (hproc : w.envconfigProcess defaultOptions = .ok o)
    (hconf : o.config w = .ok c)
    (hdisc : o.Discovery = "")
    (hloop : markerLoop w c ["member", "proxy"] [] = .inl r) :
    main w = r := by
  obtain ⟨-, hDisc, -, -, -⟩ := config_fresh o w c hconf
  have hd : c.Discovery = "" := by rw [hDisc]; exact hdisc
  simp [main, hproc, hconf, hd, hloop]


theorem isNotExist_some (e : OsError) : os.IsNotExist (some e) = e.notExist := rfl

/-- C5: without a discovery token, when `os.Stat` succeeds on the member marker, or
reports not-exist there and succeeds on the proxy marker, the run ends in the handoff right
after that check: the configuration handed off still has no peers parsed, its environment
has none of ETCD_PROXY, ETCD_INITIAL_CLUSTER_STATE and ETCD_INITIAL_CLUSTER, and the trace
holds the marker checks and the exec only, so no member-list query and no add-member call.
This holds of every run in such a world, so of a repeated run too. -/
theorem c5_prior_role_restart (w : World) (o : options) (c : config)
    (hproc : w.envconfigProcess defaultOptions = .ok o)
    (hconf : o.config w = .ok c)
    (hdisc : o.Discovery = "")
    (hmarker : w.stat (w.filepathJoin c.DataDir "member") = none ∨
      (os.IsNotExist (w.stat (w.filepathJoin c.DataDir "member")) = true ∧
        w.stat (w.filepathJoin c.DataDir "proxy") = none)) :
    ∃ c' : config,
      (main w).outcome = Outcome.handoff c' (w.exec c.Path ["etcd"] (envvOf c'.env)) ∧
      (main w).trace
        = (if w.stat (w.filepathJoin c.DataDir "member") = none
            then [Event.stat (w.filepathJoin c.DataDir "member")]
            else [Event.stat (w.filepathJoin c.DataDir "member"),
                  Event.stat (w.filepathJoin c.DataDir "proxy")])
          ++ [Event.exec c.Path ["etcd"] (envvOf c'.env)] ∧
      c'.Peers = [] ∧
      c'.env.lookup "ETCD_PROXY" = none ∧
      c'.env.lookup "ETCD_INITIAL_CLUSTER_STATE" = none ∧
      c'.env.lookup "ETCD_INITIAL_CLUSTER" = none ∧
      (∀ p, Event.membersList p ∉ (main w).trace) ∧
      (∀ p u, Event.membersAdd p u ∉ (main w).trace) := by
  obtain ⟨-, -, -, hP, hE⟩ := config_fresh o w c hconf
  have hmain : main w = c.runEtcd w
      (if w.stat (w.filepathJoin c.DataDir "member") = none
        then [Event.stat (w.filepathJoin c.DataDir "member")]
        else [Event.stat (w.filepathJoin c.DataDir "member"),
              Event.stat (w.filepathJoin c.DataDir "proxy")]) := by
    apply main_no_discovery_inl w o c _ hproc hconf hdisc
    rcases hmarker with hm | ⟨hm, hp⟩
    · simp [markerLoop, hm]
    · have hm' : w.stat (w.filepathJoin c.DataDir "member") ≠ none := by
        intro h; rw [h] at hm; simp [os.IsNotExist] at hm
      simp [markerLoop, hm, hm', hp]
  have htrace := runEtcd_trace c w
      (if w.stat (w.filepathJoin c.DataDir "member") = none
        then [Event.stat (w.filepathJoin c.DataDir "member")]
        else [Event.stat (w.filepathJoin c.DataDir "member"),
              Event.stat (w.filepathJoin c.DataDir "proxy")])
  rw [← hmain] at htrace
  refine ⟨c.mergeGeneric, ?_, htrace, ?_, ?_, ?_, ?_, ?_, ?_⟩
  · rw [hmain, runEtcd_outcome]
  · rw [(mergeGeneric_fields c).2.1, hP]
  · exact lookup_fresh_handoff c _ hE (by decide) (by decide) (by decide) (by decide) (by decide)
  · exact lookup_fresh_handoff c _ hE (by decide) (by decide) (by decide) (by decide) (by decide)
  · exact lookup_fresh_handoff c _ hE (by decide) (by decide) (by decide) (by decide) (by decide)
  · intro p; rw [htrace]; split <;> simp
  · intro p u; rw [htrace]; split <;> simp

/-- The restart path in a world with a member directory on disk. -/
theorem c5_prior_role_restart_witness :
    restartWorld.stat (restartWorld.filepathJoin "/var/lib/etcd" "member") = none ∧
    ∃ c' : config,
      (main restartWorld).outcome
        = Outcome.handoff c' (restartWorld.exec "/usr/bin/etcd" ["etcd"] (envvOf c'.env)) ∧
      (main restartWorld).trace
        = (if restartWorld.stat (restartWorld.filepathJoin "/var/lib/etcd" "member") = none
            then [Event.stat (restartWorld.filepathJoin "/var/lib/etcd" "member")]
            else [Event.stat (restartWorld.filepathJoin "/var/lib/etcd" "member"),
                  Event.stat (restartWorld.filepathJoin "/var/lib/etcd" "proxy")])
          ++ [Event.exec "/usr/bin/etcd" ["etcd"] (envvOf c'.env)] ∧
      c'.Peers = [] ∧
      c'.env.lookup "ETCD_PROXY" = none ∧
      c'.env.lookup "ETCD_INITIAL_CLUSTER_STATE" = none ∧
      c'.env.lookup "ETCD_INITIAL_CLUSTER" = none ∧
      (∀ p, Event.membersList p ∉ (main restartWorld).trace) ∧
      (∀ p u, Event.membersAdd p u ∉ (main restartWorld).trace) :=
  ⟨by decide, c5_prior_role_restart restartWorld { defaultOptions with Name := "n2" }
    { sampleConfig with Members := 5 } rfl rfl rfl (Or.inl (by decide))⟩

/-- C6: without a discovery token, an error other than not-exist from the check of the
member marker, or from the check of the proxy marker after not-exist for the member marker,
ends the run in `log.Fatal` of that error, with no exec, no member-list query and no
add-member call; and the marker loop is left for the peers check exactly when both checks
report not-exist. -/
theorem c6_marker_error_fatal (w : World) (o : options) (c : config)
    (hproc : w.envconfigProcess defaultOptions = .ok o)
    (hconf : o.config w = .ok c)
    (hdisc : o.Discovery = "") :
    (∀ e : OsError, e.notExist = false →
      (w.stat (w.filepathJoin c.DataDir "member") = some e ∨
        (os.IsNotExist (w.stat (w.filepathJoin c.DataDir "member")) = true ∧
          w.stat (w.filepathJoin c.DataDir "proxy") = some e)) →
      (main w).outcome = Outcome.fatal e.msg ∧
      (∀ p a v, Event.exec p a v ∉ (main w).trace) ∧
      (∀ p, Event.membersList p ∉ (main w).trace) ∧
      (∀ p u, Event.membersAdd p u ∉ (main w).trace)) ∧
    ((∃ t, markerLoop w c ["member", "proxy"] [] = .inr t) ↔
      (os.IsNotExist (w.stat (w.filepathJoin c.DataDir "member")) = true ∧
        os.IsNotExist (w.stat (w.filepathJoin c.DataDir "proxy")) = true)) := by
  constructor
  · intro e he herr
    rcases herr with hm | ⟨hm, hp⟩
    · have hmain : main w
          = Run.mk [Event.stat (w.filepathJoin c.DataDir "member")] (Outcome.fatal e.msg) := by
        apply main_no_discovery_inl w o c _ hproc hconf hdisc
        simp [markerLoop, hm, isNotExist_some, he]
      rw [hmain]; simp
    · have hm' : w.stat (w.filepathJoin c.DataDir "member") ≠ none := by
        intro h; rw [h] at hm; simp [os.IsNotExist] at hm
      have hmain : main w
          = Run.mk [Event.stat (w.filepathJoin c.DataDir "member"),
              Event.stat (w.filepathJoin c.DataDir "proxy")] (Outcome.fatal e.msg) := by
        apply main_no_discovery_inl w o c _ hproc hconf hdisc
        simp [markerLoop, hm, hm', hp, isNotExist_some, he]
      rw [hmain]; simp
  · constructor
    · rintro ⟨t, ht⟩
      rcases markerLoop_cases w c with h | h | h | h | h
      · rw [h.2] at ht; cases ht
      · obtain ⟨e, -, -, h⟩ := h; rw [h] at ht; cases ht
      · rw [h.2.2] at ht; cases ht
      · obtain ⟨-, e, -, -, h⟩ := h; rw [h] at ht; cases ht
      · exact ⟨h.1, h.2.1⟩
    · rintro ⟨hm, hp⟩
      have hm' : w.stat (w.filepathJoin c.DataDir "member") ≠ none := by
        intro h; rw [h] at hm; simp [os.IsNotExist] at hm
      have hp' : w.stat (w.filepathJoin c.DataDir "proxy") ≠ none := by
        intro h; rw [h] at hp; simp [os.IsNotExist] at hp
      exact ⟨[Event.stat (w.filepathJoin c.DataDir "member"),
        Event.stat (w.filepathJoin c.DataDir "proxy")], by simp [markerLoop, hm, hm', hp, hp']⟩

/-- The fatal path in a world whose proxy marker cannot be examined. -/
theorem c6_marker_error_fatal_witness :
    (main unreadableWorld).outcome = Outcome.fatal "permission denied" ∧
    (∀ p a v, Event.exec p a v ∉ (main unreadableWorld).trace) ∧
    (∀ p, Event.membersList p ∉ (main unreadableWorld).trace) ∧
    (∀ p u, Event.membersAdd p u ∉ (main unreadableWorld).trace) :=
  (c6_marker_error_fatal unreadableWorld sampleOptions sampleConfig rfl rfl rfl).1 eacces rfl
    (Or.inr ⟨by decide, by decide⟩)


/-! ## The decision engine: the peers check -/

/-- With no discovery token and both markers reported missing, `main` continues with
`setPeers`; this is the run when the peers option is blank. -/
theorem main_blank_peers (w : World) (o : options) (c : config)
    (hproc : w.envconfigProcess defaultOptions = .ok o)
    (hconf : o.config w = .ok c)
    (hdisc : o.Discovery = "")
    (hpeers : o.Peers = "")
    (hm : os.IsNotExist (w.stat (w.filepathJoin c.DataDir "member")) = true)
    (hp : os.IsNotExist (w.stat (w.filepathJoin c.DataDir "proxy")) = true) :
    main w = Run.mk [Event.stat (w.filepathJoin c.DataDir "member"),
      Event.stat (w.filepathJoin c.DataDir "proxy")] (Outcome.fatal "peers cannot be blank") := by
  obtain ⟨-, hDisc, -, -, -⟩ := config_fresh o w c hconf
  have hd : c.Discovery = "" := by rw [hDisc]; exact hdisc
  have hm' : w.stat (w.filepathJoin c.DataDir "member") ≠ none := by
    intro h; rw [h] at hm; simp [os.IsNotExist] at hm
  have hp' : w.stat (w.filepathJoin c.DataDir "proxy") ≠ none := by
    intro h; rw [h] at hp; simp [os.IsNotExist] at hp
  simp [main, hproc, hconf, hd, markerLoop, hm, hm', hp, hp', config.setPeers, hpeers]

/-- C3, as the code has it: with a blank peers option and no discovery token the member
list is never queried and no member is added, whatever the data directory holds; and when
both marker checks report not-exist the run ends in `log.Fatal` of "peers cannot be blank"
after the two checks, with no exec. -/
theorem c3_blank_peers (w : World) (o : options) (c : config)
    (hproc : w.envconfigProcess defaultOptions = .ok o)
    (hconf : o.config w = .ok c)
    (hdisc : o.Discovery = "")
    (hpeers : o.Peers = "") :
    (∀ p, Event.membersList p ∉ (main w).trace) ∧
    (∀ p u, Event.membersAdd p u ∉ (main w).trace) ∧
    (os.IsNotExist (w.stat (w.filepathJoin c.DataDir "member")) = true →
      os.IsNotExist (w.stat (w.filepathJoin c.DataDir "proxy")) = true →
      (main w).outcome = Outcome.fatal "peers cannot be blank" ∧
      (main w).trace = [Event.stat (w.filepathJoin c.DataDir "member"),
        Event.stat (w.filepathJoin c.DataDir "proxy")] ∧
      (∀ p a v, Event.exec p a v ∉ (main w).trace)) := by
  have hcalls : (∀ p, Event.membersList p ∉ (main w).trace) ∧
      (∀ p u, Event.membersAdd p u ∉ (main w).trace) := by
    rcases markerLoop_cases w c with h | h | h | h | h
    · rw [main_no_discovery_inl w o c _ hproc hconf hdisc h.2, runEtcd_trace]; simp
    · obtain ⟨e, -, -, h⟩ := h
      rw [main_no_discovery_inl w o c _ hproc hconf hdisc h]; simp
    · rw [main_no_discovery_inl w o c _ hproc hconf hdisc h.2.2, runEtcd_trace]; simp
    · obtain ⟨-, e, -, -, h⟩ := h
      rw [main_no_discovery_inl w o c _ hproc hconf hdisc h]; simp
    · rw [main_blank_peers w o c hproc hconf hdisc hpeers h.1 h.2.1]; simp
  refine ⟨hcalls.1, hcalls.2, ?_⟩
  intro hm hp
  rw [main_blank_peers w o c hproc hconf hdisc hpeers hm hp]; simp

/-- The missing-peers failure in a world with an empty data directory. -/
theorem c3_blank_peers_witness :
    (∀ p, Event.membersList p ∉ (main blankPeersWorld).trace) ∧
    (∀ p u, Event.membersAdd p u ∉ (main blankPeersWorld).trace) ∧
    (main blankPeersWorld).outcome = Outcome.fatal "peers cannot be blank" ∧
    (main blankPeersWorld).trace
      = [Event.stat "/var/lib/etcd/member", Event.stat "/var/lib/etcd/proxy"] ∧
    (∀ p a v, Event.exec p a v ∉ (main blankPeersWorld).trace) :=
  have h := c3_blank_peers blankPeersWorld { defaultOptions with Name := "n2" }
    { sampleConfig with Members := 5 } rfl rfl rfl rfl
  ⟨h.1, h.2.1, h.2.2 (by decide) (by decide)⟩

/-- C3 as stated fails: with a blank peers option, no discovery token and a member
directory on disk, the run does not end in the missing-peers failure but in the handoff. -/
theorem c3_counterexample :
    restartWorld.envconfigProcess defaultOptions = .ok { defaultOptions with Name := "n2" } ∧
    ({ defaultOptions with Name := "n2" } : options).Peers = "" ∧
    ({ defaultOptions with Name := "n2" } : options).Discovery = "" ∧
    ({ defaultOptions with Name := "n2" } : options).config restartWorld
      = .ok { sampleConfig with Members := 5 } ∧
    (main restartWorld).outcome ≠ Outcome.fatal "peers cannot be blank" ∧
    (main restartWorld).outcome
      = Outcome.handoff { sampleConfig with Members := 5 }.mergeGeneric none ∧
    (main restartWorld).trace
      = [Event.stat "/var/lib/etcd/member",
         Event.exec "/usr/bin/etcd" ["etcd"]
          ["ETCD_ADVERTISE_CLIENT_URLS=http://127.0.0.1:2380,http://10.0.0.2:2380",
           "ETCD_LISTEN_CLIENT_URLS=http://127.0.0.1:2380,http://10.0.0.2:2380",
           "ETCD_LISTEN_PEER_URLS=http://127.0.0.1:2379,http://10.0.0.2:2379",
           "ETCD_NAME=n2", "ETCD_DATA_DIR=/var/lib/etcd"]] := by
  refine ⟨rfl, rfl, rfl, rfl, by decide, rfl, by decide⟩


/-! ## The decision engine: after the member list is fetched -/

theorem alreadyMember_iff (c : config) (members : List client.Member) :
    alreadyMember c members = true ↔ ∃ m ∈ members, m.Name = c.Name := by
  induction members with
  | nil => simp [alreadyMember]
  | cons m ms ih =>
    by_cases h : m.Name = c.Name
    · simp [alreadyMember, h]
    · simp [alreadyMember, h, ih]

theorem alreadyMember_setPeers (c : config) (peers : List String)
    (members : List client.Member) :
    alreadyMember { c with Peers := peers } members = alreadyMember c members := by
  induction members with
  | nil => rfl
  | cons m ms ih => simp only [alreadyMember, ih]

theorem initialClusterConf_setPeers (c : config) (peers : List String)
    (members : List client.Member) :
    config.initialClusterConf { c with Peers := peers } members = c.initialClusterConf members :=
  rfl

/-- The run up to the fetched member list: no discovery token, both markers missing, peers
given, and the members API answering with `members`. -/
theorem main_members_fetched (w : World) (o : options) (c : config)
    (members : List client.Member)
    (hproc : w.envconfigProcess defaultOptions = .ok o)
    (hconf : o.config w = .ok c)
    (hdisc : o.Discovery = "")
    (hm : os.IsNotExist (w.stat (w.filepathJoin c.DataDir "member")) = true)
    (hp : os.IsNotExist (w.stat (w.filepathJoin c.DataDir "proxy")) = true)
    (hpeers : o.Peers ≠ "")
    (hnew : w.clientNew (strings.Split o.Peers ',') = none)
    (hlist : w.membersList (strings.Split o.Peers ',') = .ok members) :
    main w =
      if alreadyMember c members then
        config.runEtcd { c with Peers := strings.Split o.Peers ',' } w
          [Event.stat (w.filepathJoin c.DataDir "member"),
           Event.stat (w.filepathJoin c.DataDir "proxy"),
           Event.membersList (strings.Split o.Peers ',')]
      else if (members.length : Int) ≥ c.Members then
        config.runEtcd
          ((config.setEnv { c with Peers := strings.Split o.Peers ',' } "ETCD_INITIAL_CLUSTER"
            (strings.Join (c.initialClusterConf members) ",")).setEnv "ETCD_PROXY" "on") w
          [Event.stat (w.filepathJoin c.DataDir "member"),
           Event.stat (w.filepathJoin c.DataDir "proxy"),
           Event.membersList (strings.Split o.Peers ',')]
      else
        match w.membersAdd (strings.Split o.Peers ',') (strings.Join c.ListenPeerURLs ",") with
        | some err =>
          Run.mk
            [Event.stat (w.filepathJoin c.DataDir "member"),
             Event.stat (w.filepathJoin c.DataDir "proxy"),
             Event.membersList (strings.Split o.Peers ','),
             Event.membersAdd (strings.Split o.Peers ',') (strings.Join c.ListenPeerURLs ",")]
            (Outcome.fatal ("failed to add new member: " ++ err))
        | none =>
          config.runEtcd
            ((config.setEnv { c with Peers := strings.Split o.Peers ',' } "ETCD_INITIAL_CLUSTER"
              (strings.Join (c.initialClusterConf members) ",")).setEnv
                "ETCD_INITIAL_CLUSTER_STATE" "existing") w
            [Event.stat (w.filepathJoin c.DataDir "member"),
             Event.stat (w.filepathJoin c.DataDir "proxy"),
             Event.membersList (strings.Split o.Peers ','),
             Event.membersAdd (strings.Split o.Peers ',') (strings.Join c.ListenPeerURLs ",")] := by
  obtain ⟨-, hDisc, -, -, -⟩ := config_fresh o w c hconf
  have hd : c.Discovery = "" := by rw [hDisc]; exact hdisc
  have hm' : w.stat (w.filepathJoin c.DataDir "member") ≠ none := by
    intro h; rw [h] at hm; simp [os.IsNotExist] at hm
  have hp' : w.stat (w.filepathJoin c.DataDir "proxy") ≠ none := by
    intro h; rw [h] at hp; simp [os.IsNotExist] at hp
  have ham := alreadyMember_setPeers c (strings.Split o.Peers ',') members
  have hic := initialClusterConf_setPeers c (strings.Split o.Peers ',') members
  simp only [main, hproc, hconf, markerLoop, config.setPeers, config.getMembers,
    config.setInitialCluster, config.addMember, if_neg (not_not.mpr hd), if_neg hm', if_neg hp',
    if_neg hpeers, hm, hp, hnew, hlist, ham, hic, config.setEnv]
  rcases w.membersAdd (strings.Split o.Peers ',') (strings.Join c.ListenPeerURLs ",")
    with _ | err <;> simp


/-- C4: when the member list is fetched and one of the fetched members has the local name,
the run ends in the handoff right after the query, with no add-member call and with an
environment that has none of ETCD_PROXY, ETCD_INITIAL_CLUSTER_STATE and
ETCD_INITIAL_CLUSTER; nothing is assumed of the member count. -/
theorem c4_already_member_rejoins (w : World) (o : options) (c : config)
    (members : List client.Member)
    (hproc : w.envconfigProcess defaultOptions = .ok o)
    (hconf : o.config w = .ok c)
    (hdisc : o.Discovery = "")
    (hm : os.IsNotExist (w.stat (w.filepathJoin c.DataDir "member")) = true)
    (hp : os.IsNotExist (w.stat (w.filepathJoin c.DataDir "proxy")) = true)
    (hpeers : o.Peers ≠ "")
    (hnew : w.clientNew (strings.Split o.Peers ',') = none)
    (hlist : w.membersList (strings.Split o.Peers ',') = .ok members)
    (hname : ∃ m ∈ members, m.Name = c.Name) :
    ∃ c' : config,
      (main w).outcome = Outcome.handoff c' (w.exec c.Path ["etcd"] (envvOf c'.env)) ∧
      (main w).trace
        = [Event.stat (w.filepathJoin c.DataDir "member"),
           Event.stat (w.filepathJoin c.DataDir "proxy"),
           Event.membersList (strings.Split o.Peers ','),
           Event.exec c.Path ["etcd"] (envvOf c'.env)] ∧
      c'.env.lookup "ETCD_PROXY" = none ∧
      c'.env.lookup "ETCD_INITIAL_CLUSTER_STATE" = none ∧
      c'.env.lookup "ETCD_INITIAL_CLUSTER" = none ∧
      (∀ p u, Event.membersAdd p u ∉ (main w).trace) := by
  obtain ⟨-, -, -, -, hE⟩ := config_fresh o w c hconf
  have hmain := main_members_fetched w o c members hproc hconf hdisc hm hp hpeers hnew hlist
  rw [if_pos ((alreadyMember_iff c members).mpr hname)] at hmain
  have hE1 : (({ c with Peers := strings.Split o.Peers ',' } : config)).env = ∅ := hE
  have htrace : (main w).trace
      = [Event.stat (w.filepathJoin c.DataDir "member"),
         Event.stat (w.filepathJoin c.DataDir "proxy"),
         Event.membersList (strings.Split o.Peers ','),
         Event.exec c.Path ["etcd"]
          (envvOf (config.mergeGeneric { c with Peers := strings.Split o.Peers ',' }).env)] := by
    rw [hmain, runEtcd_trace]; rfl
  refine ⟨config.mergeGeneric { c with Peers := strings.Split o.Peers ',' }, ?_, htrace,
    ?_, ?_, ?_, ?_⟩
  · rw [hmain, runEtcd_outcome]
  · exact lookup_fresh_handoff _ _ hE1 (by decide) (by decide) (by decide) (by decide)
      (by decide)
  · exact lookup_fresh_handoff _ _ hE1 (by decide) (by decide) (by decide) (by decide)
      (by decide)
  · exact lookup_fresh_handoff _ _ hE1 (by decide) (by decide) (by decide) (by decide)
      (by decide)
  · intro p u; rw [htrace]; simp

/-- The rejoin path in a world where n2 is one of five members, as many as the default desired count. -/
theorem c4_already_member_rejoins_witness :
    (5 : Int) ≤ ([memberOf "n1" "http://10.0.0.1:2380", memberOf "n2" "http://10.0.0.2:2380",
      memberOf "n3" "http://10.0.0.3:2380", memberOf "n4" "http://10.0.0.4:2380",
      memberOf "n5" "http://10.0.0.5:2380"].length : Int) ∧
    ∃ c' : config,
      (main rejoinWorld).outcome
        = Outcome.handoff c' (rejoinWorld.exec "/usr/bin/etcd" ["etcd"] (envvOf c'.env)) ∧
      (main rejoinWorld).trace
        = [Event.stat (rejoinWorld.filepathJoin "/var/lib/etcd" "member"),
           Event.stat (rejoinWorld.filepathJoin "/var/lib/etcd" "proxy"),
           Event.membersList (strings.Split "http://10.0.0.1:2379" ','),
           Event.exec "/usr/bin/etcd" ["etcd"] (envvOf c'.env)] ∧
      c'.env.lookup "ETCD_PROXY" = none ∧
      c'.env.lookup "ETCD_INITIAL_CLUSTER_STATE" = none ∧
      c'.env.lookup "ETCD_INITIAL_CLUSTER" = none ∧
      (∀ p u, Event.membersAdd p u ∉ (main rejoinWorld).trace) :=
  ⟨by decide, c4_already_member_rejoins rejoinWorld sampleOptions sampleConfig
    [memberOf "n1" "http://10.0.0.1:2380", memberOf "n2" "http://10.0.0.2:2380",
      memberOf "n3" "http://10.0.0.3:2380", memberOf "n4" "http://10.0.0.4:2380",
      memberOf "n5" "http://10.0.0.5:2380"]
    rfl rfl rfl (by decide) (by decide) (by decide) rfl rfl
    ⟨memberOf "n2" "http://10.0.0.2:2380", by decide, rfl⟩⟩

/-- C2: in a run that reaches the capacity check (no discovery token, both markers missing,
peers given, member list fetched, local name not among the members), when the number of
fetched members is at least the desired member count, equality included, the run ends in
the handoff with ETCD_PROXY bound to "on" and ETCD_INITIAL_CLUSTER_STATE unbound, and the
trace has no add-member call. -/
theorem c2_proxy_at_capacity (w : World) (o : options) (c : config)
    (members : List client.Member)
    (hproc : w.envconfigProcess defaultOptions = .ok o)
    (hconf : o.config w = .ok c)
    (hdisc : o.Discovery = "")
    (hm : os.IsNotExist (w.stat (w.filepathJoin c.DataDir "member")) = true)
    (hp : os.IsNotExist (w.stat (w.filepathJoin c.DataDir "proxy")) = true)
    (hpeers : o.Peers ≠ "")
    (hnew : w.clientNew (strings.Split o.Peers ',') = none)
    (hlist : w.membersList (strings.Split o.Peers ',') = .ok members)
    (hname : ∀ m ∈ members, m.Name ≠ c.Name)
    (hcap : (members.length : Int) ≥ c.Members) :
    ∃ c' : config,
      (main w).outcome = Outcome.handoff c' (w.exec c.Path ["etcd"] (envvOf c'.env)) ∧
      (main w).trace
        = [Event.stat (w.filepathJoin c.DataDir "member"),
           Event.stat (w.filepathJoin c.DataDir "proxy"),
           Event.membersList (strings.Split o.Peers ','),
           Event.exec c.Path ["etcd"] (envvOf c'.env)] ∧
      c'.env.lookup "ETCD_PROXY" = some "on" ∧
      c'.env.lookup "ETCD_INITIAL_CLUSTER_STATE" = none ∧
      (∀ p u, Event.membersAdd p u ∉ (main w).trace) := by
  obtain ⟨-, -, -, -, hE⟩ := config_fresh o w c hconf
  have hmain := main_members_fetched w o c members hproc hconf hdisc hm hp hpeers hnew hlist
  have hnot : ¬ (alreadyMember c members = true) := by
    rw [alreadyMember_iff]
    rintro ⟨m, hmem, hmn⟩
    exact hname m hmem hmn
  rw [if_neg hnot, if_pos hcap] at hmain
  have htrace := congrArg Run.trace hmain
  rw [runEtcd_trace] at htrace
  refine ⟨_, ?_, htrace, ?_, ?_, ?_⟩
  · rw [hmain, runEtcd_outcome]; rfl
  · rw [mergeGeneric_lookup_other _ _ (by decide) (by decide) (by decide) (by decide)
      (by decide), setEnv_lookup_same]
  · rw [mergeGeneric_lookup_other _ _ (by decide) (by decide) (by decide) (by decide)
      (by decide), setEnv_lookup_ne _ _ _ _ (by decide), setEnv_lookup_ne _ _ _ _ (by decide)]
    show c.env.lookup _ = none
    rw [hE]; exact AList.lookup_empty _
  · intro p u; rw [htrace]; simp

/-- The proxy path at the boundary: three members fetched, three desired. -/
theorem c2_proxy_at_capacity_witness :
    ([memberOf "n1" "http://10.0.0.1:2380", memberOf "n3" "http://10.0.0.3:2380",
      memberOf "n4" "http://10.0.0.4:2380"].length : Int) = sampleConfig.Members ∧
    ∃ c' : config,
      (main fullWorld).outcome
        = Outcome.handoff c' (fullWorld.exec "/usr/bin/etcd" ["etcd"] (envvOf c'.env)) ∧
      (main fullWorld).trace
        = [Event.stat (fullWorld.filepathJoin "/var/lib/etcd" "member"),
           Event.stat (fullWorld.filepathJoin "/var/lib/etcd" "proxy"),
           Event.membersList (strings.Split "http://10.0.0.1:2379" ','),
           Event.exec "/usr/bin/etcd" ["etcd"] (envvOf c'.env)] ∧
      c'.env.lookup "ETCD_PROXY" = some "on" ∧
      c'.env.lookup "ETCD_INITIAL_CLUSTER_STATE" = none ∧
      (∀ p u, Event.membersAdd p u ∉ (main fullWorld).trace) :=
  ⟨by decide, c2_proxy_at_capacity fullWorld sampleOptions sampleConfig
    [memberOf "n1" "http://10.0.0.1:2380", memberOf "n3" "http://10.0.0.3:2380",
      memberOf "n4" "http://10.0.0.4:2380"]
    rfl rfl rfl (by decide) (by decide) (by decide) rfl rfl (by decide) (by decide)⟩


/-- C7: in a run that reaches the new-member path (no discovery token, both markers
missing, peers given, member list fetched, local name not among the members, fewer members
than desired), the members API call `Add` is made exactly once, through the configured
peers and with the local peer URLs joined by commas.  When it succeeds the run ends in the
handoff with ETCD_INITIAL_CLUSTER_STATE bound to "existing", ETCD_INITIAL_CLUSTER bound to
the assembled string and ETCD_PROXY unbound; when it fails the run ends in `log.Fatal`
with no exec. -/
theorem c7_new_member (w : World) (o : options) (c : config)
    (members : List client.Member)
    (hproc : w.envconfigProcess defaultOptions = .ok o)
    (hconf : o.config w = .ok c)
    (hdisc : o.Discovery = "")
    (hm : os.IsNotExist (w.stat (w.filepathJoin c.DataDir "member")) = true)
    (hp : os.IsNotExist (w.stat (w.filepathJoin c.DataDir "proxy")) = true)
    (hpeers : o.Peers ≠ "")
    (hnew : w.clientNew (strings.Split o.Peers ',') = none)
    (hlist : w.membersList (strings.Split o.Peers ',') = .ok members)
    (hname : ∀ m ∈ members, m.Name ≠ c.Name)
    (hcap : (members.length : Int) < c.Members) :
    (main w).trace.count
      (Event.membersAdd (strings.Split o.Peers ',') (strings.Join c.ListenPeerURLs ",")) = 1 ∧
    (∀ p u, Event.membersAdd p u ∈ (main w).trace →
      p = strings.Split o.Peers ',' ∧ u = strings.Join c.ListenPeerURLs ",") ∧
    (w.membersAdd (strings.Split o.Peers ',') (strings.Join c.ListenPeerURLs ",") = none →
      ∃ c' : config,
        (main w).outcome = Outcome.handoff c' (w.exec c.Path ["etcd"] (envvOf c'.env)) ∧
        (main w).trace
          = [Event.stat (w.filepathJoin c.DataDir "member"),
             Event.stat (w.filepathJoin c.DataDir "proxy"),
             Event.membersList (strings.Split o.Peers ','),
             Event.membersAdd (strings.Split o.Peers ',') (strings.Join c.ListenPeerURLs ","),
             Event.exec c.Path ["etcd"] (envvOf c'.env)] ∧
        c'.env.lookup "ETCD_INITIAL_CLUSTER_STATE" = some "existing" ∧
        c'.env.lookup "ETCD_INITIAL_CLUSTER"
          = some (strings.Join (c.initialClusterConf members) ",") ∧
        c'.env.lookup "ETCD_PROXY" = none) ∧
    (∀ err,
      w.membersAdd (strings.Split o.Peers ',') (strings.Join c.ListenPeerURLs ",") = some err →
      (main w).outcome = Outcome.fatal ("failed to add new member: " ++ err) ∧
      (main w).trace
        = [Event.stat (w.filepathJoin c.DataDir "member"),
           Event.stat (w.filepathJoin c.DataDir "proxy"),
           Event.membersList (strings.Split o.Peers ','),
           Event.membersAdd (strings.Split o.Peers ',') (strings.Join c.ListenPeerURLs ",")] ∧
      (∀ p a v, Event.exec p a v ∉ (main w).trace)) := by
  obtain ⟨-, -, -, -, hE⟩ := config_fresh o w c hconf
  have hmain := main_members_fetched w o c members hproc hconf hdisc hm hp hpeers hnew hlist
  have hnot : ¬ (alreadyMember c members = true) := by
    rw [alreadyMember_iff]
    rintro ⟨m, hmem, hmn⟩
    exact hname m hmem hmn
  rw [if_neg hnot, if_neg (not_le.mpr hcap)] at hmain
  rcases hadd : w.membersAdd (strings.Split o.Peers ',') (strings.Join c.ListenPeerURLs ",")
    with _ | err
  · rw [hadd] at hmain
    simp only at hmain
    have htrace := congrArg Run.trace hmain
    rw [runEtcd_trace] at htrace
    refine ⟨?_, ?_, ?_, ?_⟩
    · rw [htrace]; simp [List.count_cons]
    · intro p u hmem
      rw [htrace] at hmem
      simpa using hmem
    · intro _
      refine ⟨_, ?_, htrace, ?_, ?_, ?_⟩
      · rw [hmain, runEtcd_outcome]; rfl
      · rw [mergeGeneric_lookup_other _ _ (by decide) (by decide) (by decide) (by decide)
          (by decide), setEnv_lookup_same]
      · rw [mergeGeneric_lookup_other _ _ (by decide) (by decide) (by decide) (by decide)
          (by decide), setEnv_lookup_ne _ _ _ _ (by decide), setEnv_lookup_same]
      · rw [mergeGeneric_lookup_other _ _ (by decide) (by decide) (by decide) (by decide)
          (by decide), setEnv_lookup_ne _ _ _ _ (by decide),
          setEnv_lookup_ne _ _ _ _ (by decide)]
        show c.env.lookup _ = none
        rw [hE]; exact AList.lookup_empty _
    · intro err herr; cases herr
  · rw [hadd] at hmain
    simp only at hmain
    refine ⟨?_, ?_, ?_, ?_⟩
    · rw [hmain]; simp [List.count_cons]
    · intro p u hmem
      rw [hmain] at hmem
      simpa using hmem
    · intro h; cases h
    · intro err' herr
      cases herr
      rw [hmain]; simp

/-- The new-member path in the sample world, and its failure in a world whose cluster refuses. -/
theorem c7_new_member_witness :
    (main sampleWorld).trace.count
      (Event.membersAdd ["http://10.0.0.1:2379"] "http://127.0.0.1:2379,http://10.0.0.2:2379")
      = 1 ∧
    (∃ c' : config,
      (main sampleWorld).outcome
        = Outcome.handoff c' (sampleWorld.exec "/usr/bin/etcd" ["etcd"] (envvOf c'.env)) ∧
      (main sampleWorld).trace
        = [Event.stat "/var/lib/etcd/member", Event.stat "/var/lib/etcd/proxy",
           Event.membersList ["http://10.0.0.1:2379"],
           Event.membersAdd ["http://10.0.0.1:2379"]
             "http://127.0.0.1:2379,http://10.0.0.2:2379",
           Event.exec "/usr/bin/etcd" ["etcd"] (envvOf c'.env)] ∧
      c'.env.lookup "ETCD_INITIAL_CLUSTER_STATE" = some "existing" ∧
      c'.env.lookup "ETCD_INITIAL_CLUSTER"
        = some "n1=http://10.0.0.1:2380,n2=http://127.0.0.1:2379,n2=http://10.0.0.2:2379" ∧
      c'.env.lookup "ETCD_PROXY" = none) ∧
    (main refusingWorld).outcome
      = Outcome.fatal "failed to add new member: client: etcd cluster is unavailable" ∧
    (∀ p a v, Event.exec p a v ∉ (main refusingWorld).trace) :=
  have h1 := c7_new_member sampleWorld sampleOptions sampleConfig
    [memberOf "n1" "http://10.0.0.1:2380"]
    rfl rfl rfl (by decide) (by decide) (by decide) rfl rfl (by decide) (by decide)
  have h2 := c7_new_member refusingWorld sampleOptions sampleConfig
    [memberOf "n1" "http://10.0.0.1:2380"]
    rfl rfl rfl (by decide) (by decide) (by decide) rfl rfl (by decide) (by decide)
  ⟨h1.1, h1.2.2.1 rfl, (h2.2.2.2 _ rfl).1, (h2.2.2.2 _ rfl).2.2⟩


/-! ## The initial-cluster string -/

theorem appendMember_eq (conf : List String) (name : String) (urls : List String) :
    appendMember conf name urls = conf ++ urls.map (fun u => name ++ "=" ++ u) := by
  induction urls generalizing conf with
  | nil => simp [appendMember]
  | cons u us ih => simp [appendMember, ih]

theorem appendMembers_eq (conf : List String) (members : List client.Member) :
    appendMembers conf members
      = conf ++ members.flatMap (fun m => m.PeerURLs.map (fun u => m.Name ++ "=" ++ u)) := by
  induction members generalizing conf with
  | nil => simp [appendMembers]
  | cons m ms ih => simp [appendMembers, ih, appendMember_eq]

theorem initialClusterConf_eq (c : config) (members : List client.Member) :
    c.initialClusterConf members
      = members.flatMap (fun m => m.PeerURLs.map (fun u => m.Name ++ "=" ++ u))
        ++ c.ListenPeerURLs.map (fun u => c.Name ++ "=" ++ u) := by
  simp [config.initialClusterConf, appendMembers_eq]

theorem flatMap_single_url (members : List client.Member) (urls : List String)
    (h : members.map (fun m => m.PeerURLs) = urls.map (fun u => [u])) :
    members.flatMap (fun m => m.PeerURLs.map (fun u => m.Name ++ "=" ++ u))
      = List.zipWith (fun m u => m.Name ++ "=" ++ u) members urls := by
  induction members generalizing urls with
  | nil => simp
  | cons m ms ih =>
    cases urls with
    | nil => simp at h
    | cons u us =>
      simp only [List.map_cons, List.cons.injEq] at h
      simp [h.1, ih us h.2]

theorem flatMap_length (members : List client.Member) :
    (members.flatMap (fun m => m.PeerURLs.map (fun u => m.Name ++ "=" ++ u))).length
      = (members.map (fun m => m.PeerURLs.length)).sum := by
  induction members with
  | nil => simp
  | cons m ms ih => simp [ih]

theorem zipWith_names (members : List client.Member) (urls : List String)
    (hlen : members.length = urls.length) :
    List.map Prod.fst (List.zipWith (fun m u => (m.Name, u)) members urls)
      = members.map (fun m => m.Name) := by
  induction members generalizing urls with
  | nil => simp
  | cons m ms ih =>
    cases urls with
    | nil => simp at hlen
    | cons u us =>
      simp only [List.length_cons, Nat.add_right_cancel_iff] at hlen
      simp [ih us hlen]

theorem zipWith_urls (members : List client.Member) (urls : List String)
    (hlen : members.length = urls.length) :
    List.map Prod.snd (List.zipWith (fun m u => (m.Name, u)) members urls) = urls := by
  induction members generalizing urls with
  | nil =>
    cases urls with
    | nil => simp
    | cons u us => simp at hlen
  | cons m ms ih =>
    cases urls with
    | nil => simp at hlen
    | cons u us =>
      simp only [List.length_cons, Nat.add_right_cancel_iff] at hlen
      simp [ih us hlen]

/-- C1, as the code has it: the value stored under ETCD_INITIAL_CLUSTER is the comma-join
of `name=URL` entries, one per peer URL of each fetched member in order, then one per local
peer URL, so their number is the number of fetched peer URLs plus the number of local peer
URLs.  When every fetched member and the local node have exactly one peer URL there is
exactly one entry per fetched member plus one for the local node, each made of the name of
its node and its URL; and when moreover the fetched names are pairwise distinct and differ
from the local name, the names of the entries are pairwise distinct. -/
theorem c1_initial_cluster_entries (c : config) (members : List client.Member) :
    ∃ c' : config,
      c.setInitialCluster members = .ok c' ∧
      c'.env.lookup "ETCD_INITIAL_CLUSTER"
        = some (strings.Join (c.initialClusterConf members) ",") ∧
      c.initialClusterConf members
        = members.flatMap (fun m => m.PeerURLs.map (fun u => m.Name ++ "=" ++ u))
          ++ c.ListenPeerURLs.map (fun u => c.Name ++ "=" ++ u) ∧
      (c.initialClusterConf members).length
        = (members.map (fun m => m.PeerURLs.length)).sum + c.ListenPeerURLs.length ∧
      (∀ (urls : List String) (lu : String),
        members.map (fun m => m.PeerURLs) = urls.map (fun u => [u]) →
        c.ListenPeerURLs = [lu] →
        (c.initialClusterConf members).length = members.length + 1 ∧
        ∃ pairs : List (String × String),
          c.initialClusterConf members = pairs.map (fun p => p.1 ++ "=" ++ p.2) ∧
          pairs.map Prod.fst = members.map (fun m => m.Name) ++ [c.Name] ∧
          pairs.map Prod.snd = urls ++ [lu] ∧
          ((members.map (fun m => m.Name) ++ [c.Name]).Nodup → (pairs.map Prod.fst).Nodup)) := by
  refine ⟨_, rfl, setEnv_lookup_same _ _ _, initialClusterConf_eq c members, ?_, ?_⟩
  · rw [initialClusterConf_eq, List.length_append, flatMap_length, List.length_map]
  · intro urls lu hurls hlu
    have hlen : members.length = urls.length := by
      have := congrArg List.length hurls
      simpa using this
    have hconf : c.initialClusterConf members
        = List.zipWith (fun m u => m.Name ++ "=" ++ u) members urls ++ [c.Name ++ "=" ++ lu] := by
      rw [initialClusterConf_eq, flatMap_single_url members urls hurls, hlu]
      rfl
    refine ⟨?_, ?_⟩
    · rw [hconf]; simp [hlen]
    · refine ⟨List.zipWith (fun m u => (m.Name, u)) members urls ++ [(c.Name, lu)], ?_, ?_, ?_,
        ?_⟩
      · rw [hconf]
        simp [List.map_zipWith]
      · simp [zipWith_names members urls hlen]
      · simp [zipWith_urls members urls hlen]
      · intro hnodup
        rw [List.map_append, zipWith_names members urls hlen]
        exact hnodup

/-- One fetched member and a local node with one peer URL each: two entries, names n1 and n2. -/
theorem c1_initial_cluster_entries_witness :
    (oneURLConfig.initialClusterConf [memberOf "n1" "http://10.0.0.1:2380"]).length = 1 + 1 ∧
    ∃ pairs : List (String × String),
      oneURLConfig.initialClusterConf [memberOf "n1" "http://10.0.0.1:2380"]
        = pairs.map (fun p => p.1 ++ "=" ++ p.2) ∧
      pairs.map Prod.fst = ["n1", "n2"] ∧
      pairs.map Prod.snd = ["http://10.0.0.1:2380", "http://10.0.0.2:2380"] ∧
      ((["n1", "n2"] : List String).Nodup → (pairs.map Prod.fst).Nodup) :=
  (c1_initial_cluster_entries oneURLConfig [memberOf "n1" "http://10.0.0.1:2380"]).elim
    (fun _ h => h.2.2.2.2 ["http://10.0.0.1:2380"] "http://10.0.0.2:2380" rfl rfl)

/-- C1 as stated fails: in the configuration the program derives on a host with a loopback
and a private address the local node has two peer URLs, so a one-member cluster yields
three entries, two of them for the name n2; and a fetched member with two peer URLs gets
two entries as well. -/
theorem c1_counterexample :
    sampleOptions.config sampleWorld = .ok sampleConfig ∧
    sampleConfig.initialClusterConf [memberOf "n1" "http://10.0.0.1:2380"]
      = ["n1=http://10.0.0.1:2380", "n2=http://127.0.0.1:2379", "n2=http://10.0.0.2:2379"] ∧
    (∃ c' : config,
      sampleConfig.setInitialCluster [memberOf "n1" "http://10.0.0.1:2380"] = .ok c' ∧
      c'.env.lookup "ETCD_INITIAL_CLUSTER"
        = some "n1=http://10.0.0.1:2380,n2=http://127.0.0.1:2379,n2=http://10.0.0.2:2379") ∧
    (sampleConfig.initialClusterConf [memberOf "n1" "http://10.0.0.1:2380"]).length
      ≠ [memberOf "n1" "http://10.0.0.1:2380"].length + 1 ∧
    oneURLConfig.initialClusterConf [twoURLMember]
      = ["n1=http://10.0.0.1:2380", "n1=http://192.168.0.1:2380", "n2=http://10.0.0.2:2380"] :=
  ⟨rfl, by decide, ⟨_, rfl, by decide⟩, by decide, by decide⟩


/-! ## Splitting and joining -/

theorem splitChars_ne_nil (sep : Char) (l : List Char) : splitChars sep l ≠ [] := by
  cases l with
  | nil => simp [splitChars]
  | cons c cs =>
    unfold splitChars
    split
    · simp
    · split <;> simp

theorem splitChars_no_sep (sep : Char) (l : List Char) :
    ∀ e ∈ splitChars sep l, sep ∉ e := by
  induction l with
  | nil => simp [splitChars]
  | cons c cs ih =>
    intro e he
    unfold splitChars at he
    split at he
    · rcases List.mem_cons.mp he with rfl | h
      · simp
      · exact ih e h
    · rename_i hc
      split at he
      · rename_i hnil
        exact absurd hnil (splitChars_ne_nil sep cs)
      · rename_i h t heq
        rw [heq] at ih
        rcases List.mem_cons.mp he with rfl | hmem
        · intro hsep
          rcases List.mem_cons.mp hsep with rfl | hh
          · exact hc rfl
          · exact ih h (List.mem_cons_self _ _) hh
        · exact ih e (List.mem_cons_of_mem _ hmem)

theorem join_cons_char (c : Char) (h : List Char) (rest : List String) (sep : String) :
    strings.Join (String.mk (c :: h) :: rest) sep
      = String.mk (c :: (strings.Join (String.mk h :: rest) sep).data) := by
  cases rest with
  | nil => rfl
  | cons b bs => rfl

theorem join_splitChars (sep : Char) (l : List Char) :
    strings.Join ((splitChars sep l).map String.mk) (String.singleton sep) = String.mk l := by
  induction l with
  | nil => rfl
  | cons c cs ih =>
    unfold splitChars
    split
    · rename_i hc
      subst hc
      rcases hs : splitChars c cs with _ | ⟨h, t⟩
      · exact absurd hs (splitChars_ne_nil c cs)
      · rw [hs] at ih
        simp only [List.map_cons, strings.Join]
        simp only [List.map_cons] at ih
        rw [ih]
        rfl
    · rcases hs : splitChars sep cs with _ | ⟨h, t⟩
      · exact absurd hs (splitChars_ne_nil sep cs)
      · rw [hs] at ih
        simp only [List.map_cons]
        simp only [List.map_cons] at ih
        rw [join_cons_char, ih]

/-- Joining the pieces of a split with the separator gives the string back. -/
theorem join_split (u : String) : strings.Join (strings.Split u ',') "," = u :=
  join_splitChars ',' u.data

/-- No piece of a split contains the separator. -/
theorem split_no_sep (u : String) : ∀ e ∈ strings.Split u ',', ',' ∉ e.data := by
  intro e he
  simp only [strings.Split, List.mem_map] at he
  obtain ⟨l, hl, rfl⟩ := he
  exact splitChars_no_sep ',' u.data l hl


/-! ## Addresses and URLs -/

theorem digitChar_plain : ∀ m, m < 10 → Nat.digitChar m ≠ ':' ∧ Nat.digitChar m ≠ '%' := by
  decide

theorem toDigitsCore_plain (fuel n : Nat) (ds : List Char)
    (hds : ∀ ch ∈ ds, ch ≠ ':' ∧ ch ≠ '%') :
    ∀ ch ∈ Nat.toDigitsCore 10 fuel n ds, ch ≠ ':' ∧ ch ≠ '%' := by
  induction fuel generalizing n ds with
  | zero => simpa [Nat.toDigitsCore] using hds
  | succ fuel ih =>
    have hcons : ∀ ch ∈ Nat.digitChar (n % 10) :: ds, ch ≠ ':' ∧ ch ≠ '%' := by
      intro ch hch
      rcases List.mem_cons.mp hch with rfl | h
      · exact digitChar_plain _ (Nat.mod_lt _ (by decide))
      · exact hds ch h
    unfold Nat.toDigitsCore
    dsimp only
    split
    · exact hcons
    · exact ih _ _ hcons

theorem toString_plain (n : Nat) : ∀ ch ∈ (toString n).data, ch ≠ ':' ∧ ch ≠ '%' := by
  have h : (toString n).data = Nat.toDigits 10 n := rfl
  rw [h]
  exact toDigitsCore_plain _ _ [] (by simp)

/-- A dotted-decimal address has neither a colon nor a percent sign. -/
theorem dotted_plain (q : Nat × Nat × Nat × Nat) :
    ∀ ch ∈ (dotted q).data, ch ≠ ':' ∧ ch ≠ '%' := by
  intro ch hch
  simp only [dotted, String.data_append, List.mem_append] at hch
  rcases hch with (((((h | h) | h) | h) | h) | h) | h
  · exact toString_plain _ ch h
  · have : ch = '.' := by simpa using h
    subst this; decide
  · exact toString_plain _ ch h
  · have : ch = '.' := by simpa using h
    subst this; decide
  · exact toString_plain _ ch h
  · have : ch = '.' := by simpa using h
    subst this; decide
  · exact toString_plain _ ch h

theorem joinHostPort_dotted (q : Nat × Nat × Nat × Nat) (port : String) :
    net.JoinHostPort (dotted q) port = dotted q ++ ":" ++ port := by
  have h1 : ':' ∉ (dotted q).data := fun h => (dotted_plain q ':' h).1 rfl
  have h2 : '%' ∉ (dotted q).data := fun h => (dotted_plain q '%' h).2 rfl
  simp [net.JoinHostPort, h1, h2]

theorem appendURLs_eq (port : String) (urls addrs : List String) :
    appendURLs port urls addrs
      = urls ++ addrs.map (fun ip => "http://" ++ net.JoinHostPort ip port) := by
  induction addrs generalizing urls with
  | nil => simp [appendURLs]
  | cons a rest ih => simp [appendURLs, ih]

theorem appendURLs_dotted (port : String) (addrs : List String)
    (h : ∀ a ∈ addrs, ∃ q, a = dotted q) :
    appendURLs port [] addrs = addrs.map (fun a => "http://" ++ a ++ ":" ++ port) := by
  rw [appendURLs_eq, List.nil_append]
  apply List.map_congr_left
  intro a ha
  obtain ⟨q, rfl⟩ := h a ha
  rw [joinHostPort_dotted]
  simp [String.append_assoc]

theorem collectIPs_dotted (w : World) (ips addrs : List String)
    (h : ∀ a ∈ ips, ∃ q, a = dotted q) :
    ∀ a ∈ collectIPs w ips addrs, ∃ q, a = dotted q := by
  induction addrs generalizing ips with
  | nil => simpa [collectIPs] using h
  | cons x rest ih =>
    unfold collectIPs
    split
    · exact ih ips h
    · split
      · exact ih ips h
      · rename_i q _
        split
        · apply ih
          intro a ha
          rcases List.mem_append.mp ha with h1 | h1
          · exact h a h1
          · exact ⟨q, by simpa using h1⟩
        · exact ih ips h

/-- The addresses `getAddresses` returns are dotted-decimal IPv4 texts, provided the
cached ones are. -/
theorem getAddresses_dotted (c c1 : config) (w : World) (addrs : List String)
    (hcache : ∀ a ∈ c.Addresses, ∃ q, a = dotted q)
    (h : c.getAddresses w = .ok (addrs, c1)) :
    ∀ a ∈ addrs, ∃ q, a = dotted q := by
  unfold config.getAddresses at h
  split at h
  · split at h
    · cases h
    · dsimp only at h
      split at h
      · cases h
      · injection h with h
        injection h with h1 h2
        subst h1
        exact collectIPs_dotted w [] _ (by simp)
  · injection h with h
    injection h with h1 h2
    subst h1
    exact hcache


/-- C9: for a configuration whose cached addresses are IPv4 texts (none, when `config()`
starts), an explicit option `u` that is not empty becomes the URL list as its pieces between
commas, unchanged (joined by commas they give `u` back, and no piece holds a comma), and the
result does not depend on the world, so no address is resolved; with an empty `u` and
`getAddresses` returning `addrs`, the client URLs are `http://<address>:2380` and the peer
URLs `http://<address>:2379`, one per address and in the same order, and the two ports
differ. -/
theorem c9_url_derivation (w : World) (c : config) (u : String)
    (hcache : ∀ a ∈ c.Addresses, ∃ q, a = dotted q) :
    (u ≠ "" →
      (∀ w' : World,
        c.setClientURLS w' u = .ok { c with ListenClientURLs := strings.Split u ',' } ∧
        c.setPeerURLs w' u = .ok { c with ListenPeerURLs := strings.Split u ',' }) ∧
      strings.Join (strings.Split u ',') "," = u ∧
      (∀ e ∈ strings.Split u ',', ',' ∉ e.data)) ∧
    (u = "" → ∀ (addrs : List String) (c1 : config), c.getAddresses w = .ok (addrs, c1) →
      (∀ a ∈ addrs, ∃ q, a = dotted q) ∧
      c.setClientURLS w u
        = .ok { c1 with ListenClientURLs := addrs.map (fun a => "http://" ++ a ++ ":" ++ "2380") } ∧
      c.setPeerURLs w u
        = .ok { c1 with ListenPeerURLs := addrs.map (fun a => "http://" ++ a ++ ":" ++ "2379") } ∧
      (addrs.map (fun a => "http://" ++ a ++ ":" ++ "2380")).length = addrs.length ∧
      (addrs.map (fun a => "http://" ++ a ++ ":" ++ "2379")).length = addrs.length) ∧
    ("2380" : String) ≠ "2379" := by
  refine ⟨?_, ?_, by decide⟩
  · intro hu
    refine ⟨fun w' => ⟨?_, ?_⟩, join_split u, split_no_sep u⟩
    · simp [config.setClientURLS, hu]
    · simp [config.setPeerURLs, hu]
  · intro hu addrs c1 hga
    have hd := getAddresses_dotted c c1 w addrs hcache hga
    refine ⟨hd, ?_, ?_, by simp, by simp⟩
    · simp only [config.setClientURLS, hu, hga]
      simp [appendURLs_dotted "2380" addrs hd]
    · simp only [config.setPeerURLs, hu, hga]
      simp [appendURLs_dotted "2379" addrs hd]

/-- URL derivation in the sample world from two resolved addresses, and from an explicit option. -/
theorem c9_url_derivation_witness :
    freshConfig.setClientURLS sampleWorld ""
      = .ok { freshConfig with
              Addresses := ["127.0.0.1", "10.0.0.2"],
              ListenClientURLs := ["http://127.0.0.1:2380", "http://10.0.0.2:2380"] } ∧
    freshConfig.setPeerURLs sampleWorld ""
      = .ok { freshConfig with
              Addresses := ["127.0.0.1", "10.0.0.2"],
              ListenPeerURLs := ["http://127.0.0.1:2379", "http://10.0.0.2:2379"] } ∧
    freshConfig.setClientURLS sampleWorld "http://a:1,http://b:2"
      = .ok { freshConfig with ListenClientURLs := ["http://a:1", "http://b:2"] } :=
  have hcache : ∀ a ∈ freshConfig.Addresses, ∃ q, a = dotted q :=
    fun a ha => absurd ha (List.not_mem_nil a)
  have h1 := (c9_url_derivation sampleWorld freshConfig "" hcache).2.1 rfl
    ["127.0.0.1", "10.0.0.2"] { freshConfig with Addresses := ["127.0.0.1", "10.0.0.2"] } rfl
  have h2 := ((c9_url_derivation sampleWorld freshConfig "http://a:1,http://b:2" hcache).1
    (by decide)).1 sampleWorld
  ⟨h1.2.1, h1.2.2.1, h2.1⟩

end EtcdHelper
